import Mathlib

/-!
Verification of the action registry and request-routing layer of the
AI-System-Utility repository (`ai_system_utility`), shallowly embedded from
the Python sources:

- `core/actions.py`    : Action model, registry, built-in registration, plugins
- `core/ai_interpreter.py` : keyword fallback, Gemini adapter boundary, router
- `core/privacy_tools.py`  : registry-setting application and session backup
- `main.py`            : CLI keyword interpreter

Modelling conventions:
- Python dicts are insertion-ordered association lists (`pyDictGet`,
  `pyDictInsert`); an update at an existing key keeps its position.
- Python `sub in s` on strings is `pyIn` (contiguous substring test).
- Handlers (`Action.func`) are functions from an abstract system environment
  `SysEnv` to `Except String (Option String)`: a field of `SysEnv` being
  `none` models the corresponding `system_tools`/`privacy_tools` attribute
  missing, `some (.error e)` models the call raising an exception with
  message `e`, `some (.ok r)` models it returning `r` (a string or `None`).
- The optional Gemini strategy is modelled at its parse boundary by
  `GeminiOutcome` (unconfigured / raised / non-list JSON / JSON list).
- Registry writes in `privacy_tools` are modelled as succeeding on the
  modelled registry state; a read of an absent value yields `none`.
- Apostrophes are omitted from copied string literals.
-/

namespace AISysUtil

/-- Python `list.startswith` style prefix test on character lists. -/
def prefixMatch : List Char → List Char → Bool
  | [], _ => true
  | _ :: _, [] => false
  | a :: as, b :: bs => a == b && prefixMatch as bs

/-- Contiguous-sublist test on character lists. -/
def substrMatch : List Char → List Char → Bool
  | sub, [] => sub.isEmpty
  | sub, l₂@(_ :: rest) => prefixMatch sub l₂ || substrMatch sub rest

/-- Python `sub in s` for strings: contiguous substring occurrence. -/
def pyIn (sub s : String) : Bool :=
  substrMatch sub.toList s.toList

/-- Lower-case one character (ASCII range, which covers every keyword used). -/
def lowerChar (c : Char) : Char :=
  if 65 ≤ c.toNat && c.toNat ≤ 90 then Char.ofNat (c.toNat + 32) else c

/-- Python `str.lower()` (ASCII range). -/
def pyLower (s : String) : String := String.mk (s.toList.map lowerChar)

/-- ASCII whitespace. -/
def isSpaceChar (c : Char) : Bool := c == ' ' || c == '\t' || c == '\n' || c == '\r'

/-- Python `str.strip()`: remove leading/trailing whitespace. -/
def pyStrip (s : String) : String :=
  String.mk (((s.toList.dropWhile isSpaceChar).reverse.dropWhile isSpaceChar).reverse)

/-- Python `str.startswith(p)`. -/
def pyStartsWith (s p : String) : Bool := prefixMatch p.toList s.toList

/-- Python truthiness of an `Optional[str]`: `None` and `""` are falsy. -/
def pyTruthyStr : Option String → Bool
  | none => false
  | some s => !(s == "")

/-- Python `"\n".join(messages)`. -/
def joinLines : List String → String
  | [] => ""
  | [m] => m
  | m :: rest => m ++ "\n" ++ joinLines rest

/-- Python dict lookup `d.get(k)` on an insertion-ordered association list. -/
def pyDictGet {κ α : Type} [DecidableEq κ] : List (κ × α) → κ → Option α
  | [], _ => none
  | (k0, v0) :: rest, k => if k0 = k then some v0 else pyDictGet rest k

/-- Python dict update `d[k] = v`: replaces in place at an existing key
(keeping its insertion position), otherwise appends at the end. -/
def pyDictInsert {κ α : Type} [DecidableEq κ] : List (κ × α) → κ → α → List (κ × α)
  | [], k, v => [(k, v)]
  | (k0, v0) :: rest, k, v =>
    if k0 = k then (k0, v) :: rest else (k0, v0) :: pyDictInsert rest k v

/-- Result of one zero-argument handler call: `.error e` models a raised
exception with message `e`; `.ok r` models a normal return of `r`. -/
abbrev HandlerResult := Except String (Option String)

/-- Abstract environment supplying the outcome of each `system_tools` /
`privacy_tools` function a built-in handler may call.  A `none` field models
the module or attribute being unavailable (`hasattr` false). -/
structure SysEnv where
  cleanup_temp_files : Option HandlerResult
  cleanup_prefetch : Option HandlerResult
  cleanup_windows_update_cache : Option HandlerResult
  run_sfc_scan : Option HandlerResult
  run_dism_health_scan : Option HandlerResult
  schedule_chkdsk : Option HandlerResult
  reset_network_stack : Option HandlerResult
  open_task_manager : Option HandlerResult
  open_device_manager : Option HandlerResult
  open_services_console : Option HandlerResult
  open_system_restore : Option HandlerResult
  apply_recommended_privacy_profile : Option HandlerResult
  apply_strict_privacy_profile : Option HandlerResult
  restore_privacy_defaults : Option HandlerResult

/-- Model of `Action` dataclass from `core/actions.py`. -/
structure Action where
  id : String
  name : String
  description : String
  group : String
  dangerous : Bool
  func : SysEnv → HandlerResult

/-- Registry state: the `_ACTIONS` dict plus the ids for which the
`Overwriting existing action` warning was logged. -/
structure CatalogState where
  entries : List (String × Action)
  warnings : List String

/-- Model of `register_action` from `core/actions.py`: warns (recording the id) when
the id already exists, then stores the new `Action` under the id.  It is a
total function: registration always succeeds. -/
def registerAction (st : CatalogState) (action_id name description group : String)
    (func : SysEnv → HandlerResult) (dangerous : Bool) : Action × CatalogState :=
  let warned :=
    if (pyDictGet st.entries action_id).isSome
    then st.warnings ++ [action_id]
    else st.warnings
  let action : Action :=
    { id := action_id, name := name, description := description, group := group
      dangerous := dangerous, func := func }
  (action, { entries := pyDictInsert st.entries action_id action, warnings := warned })

/-- Model of `get_action_by_id` over a given registry state. -/
def getActionById (st : CatalogState) (action_id : String) : Option Action :=
  pyDictGet st.entries action_id

/-- Sort key order used by `list_actions`: Python tuple comparison on
`(a.group, a.name.lower())`. -/
def actionLeKey (a b : Action) : Bool :=
  decide (a.group < b.group) ||
    (a.group == b.group && (decide (pyLower a.name < pyLower b.name) || pyLower a.name == pyLower b.name))

/-- Model of `list_actions` from `core/actions.py`: all registered actions sorted by
group then case-insensitive name. -/
def listActions (st : CatalogState) : List Action :=
  (st.entries.map Prod.snd).mergeSort actionLeKey

/-- Raise-if-unavailable pattern shared by the simple built-in handlers:
`if not system_tools or not hasattr(...): raise RuntimeError(msg)` then call. -/
def requireTool (tool : Option HandlerResult) (msg : String) : HandlerResult :=
  match tool with
  | none => .error msg
  | some r => r

/-- Aggregate-step runner shared by `_cleanup_recommended` and `_health_full`:
returns (names of functions actually called, collected messages).  A missing
attribute is skipped without a call; a truthy result is collected; an
exception is collected inline as `<name> failed: <e>`; no failure aborts the
remaining steps. -/
def aggRun : List (String × Option HandlerResult) → List String × List String
  | [] => ([], [])
  | (fname, step) :: rest =>
    let tail := aggRun rest
    match step with
    | none => (tail.1, tail.2)
    | some (.ok r) =>
      (fname :: tail.1, (if pyTruthyStr r then [r.getD ""] else []) ++ tail.2)
    | some (.error e) =>
      (fname :: tail.1, (fname ++ " failed: " ++ e) :: tail.2)

/-- Step list of `_cleanup_recommended`. -/
def cleanupRecommendedSteps (env : SysEnv) : List (String × Option HandlerResult) :=
  [("cleanup_temp_files", env.cleanup_temp_files),
   ("cleanup_prefetch", env.cleanup_prefetch),
   ("cleanup_windows_update_cache", env.cleanup_windows_update_cache)]

/-- Model of `_cleanup_recommended` handler. -/
def cleanupRecommendedFunc (env : SysEnv) : HandlerResult :=
  let messages := (aggRun (cleanupRecommendedSteps env)).2
  if messages.isEmpty then .ok (some "Cleanup completed.")
  else .ok (some (joinLines messages))

/-- Step list of `_health_full`. -/
def healthFullSteps (env : SysEnv) : List (String × Option HandlerResult) :=
  [("run_sfc_scan", env.run_sfc_scan),
   ("run_dism_health_scan", env.run_dism_health_scan)]

/-- Model of `_health_full` handler. -/
def healthFullFunc (env : SysEnv) : HandlerResult :=
  let messages := (aggRun (healthFullSteps env)).2
  if messages.isEmpty then .ok (some "Health checks completed.")
  else .ok (some (joinLines messages))

/-- Model of `_register_builtin_actions` from `core/actions.py`: the sixteen built-in
registrations in source order, starting from an empty registry. -/
def registerBuiltins : CatalogState :=
  let st : CatalogState := { entries := [], warnings := [] }
  let st := (registerAction st "cleanup_temp" "Clean Temp Files"
    "Deletes temporary files from standard Windows temp locations." "cleanup"
    (fun env => requireTool env.cleanup_temp_files "Temp cleanup tool is not available.") false).2
  let st := (registerAction st "cleanup_prefetch" "Clean Prefetch Folder"
    "Cleans the Windows Prefetch folder to clear stale launch data." "cleanup"
    (fun env => requireTool env.cleanup_prefetch "Prefetch cleanup tool is not available.") false).2
  let st := (registerAction st "cleanup_windows_update_cache" "Clean Windows Update Cache"
    "Deletes and resets Windows Update cache to fix update issues." "cleanup"
    (fun env => requireTool env.cleanup_windows_update_cache "Windows Update cache cleanup is not available.") true).2
  let st := (registerAction st "cleanup_recommended" "Recommended Cleanup"
    "Runs a recommended set of cleanup operations: temp, prefetch, and update cache." "cleanup"
    cleanupRecommendedFunc true).2
  let st := (registerAction st "health_sfc" "System File Checker (SFC)"
    "Runs sfc /scannow to check and repair system files." "health"
    (fun env => requireTool env.run_sfc_scan "SFC scan tool is not available.") true).2
  let st := (registerAction st "health_dism" "DISM Health Scan"
    "Runs DISM to check and repair the Windows component store." "health"
    (fun env => requireTool env.run_dism_health_scan "DISM health scan tool is not available.") true).2
  let st := (registerAction st "health_chkdsk" "CHKDSK (Next Boot)"
    "Schedules CHKDSK on the system drive for the next reboot." "health"
    (fun env => requireTool env.schedule_chkdsk "CHKDSK scheduling tool is not available.") true).2
  let st := (registerAction st "health_full" "Full Health Check"
    "Runs SFC and DISM to verify system health. You may still choose to schedule CHKDSK." "health"
    healthFullFunc true).2
  let st := (registerAction st "network_reset" "Reset Network Stack"
    "Resets Winsock, IP stack, and flushes DNS to fix common network issues." "network"
    (fun env => requireTool env.reset_network_stack "Network reset tool is not available.") true).2
  let st := (registerAction st "tools_task_manager" "Open Task Manager"
    "Opens Windows Task Manager." "tools"
    (fun env => requireTool env.open_task_manager "Task Manager tool is not available.") false).2
  let st := (registerAction st "tools_device_manager" "Open Device Manager"
    "Opens Windows Device Manager." "tools"
    (fun env => requireTool env.open_device_manager "Device Manager tool is not available.") false).2
  let st := (registerAction st "tools_services" "Open Services"
    "Opens the Windows Services management console." "tools"
    (fun env => requireTool env.open_services_console "Services console tool is not available.") false).2
  let st := (registerAction st "tools_system_restore" "Open System Restore"
    "Opens the System Restore configuration UI." "tools"
    (fun env => requireTool env.open_system_restore "System Restore tool is not available.") false).2
  let st := (registerAction st "privacy_recommended" "Recommended Privacy Profile"
    "Applies a balanced set of privacy tweaks recommended for most users." "privacy"
    (fun env => requireTool env.apply_recommended_privacy_profile "Recommended privacy profile is not available.") true).2
  let st := (registerAction st "privacy_strict" "Strict Privacy Profile"
    "Applies a strict set of privacy tweaks, potentially disabling some Windows features." "privacy"
    (fun env => requireTool env.apply_strict_privacy_profile "Strict privacy profile is not available.") true).2
  let st := (registerAction st "privacy_restore_defaults" "Restore Privacy Defaults"
    "Restores Windows privacy-related settings to their default values." "privacy"
    (fun env => requireTool env.restore_privacy_defaults "Privacy defaults restore is not available.") true).2
  st

/-- Arguments of one `registry.register_action(...)` call made by a plugin. -/
structure RegArgs where
  action_id : String
  name : String
  description : String
  group : String
  func : SysEnv → HandlerResult
  dangerous : Bool

/-- Behaviour of one discovered plugin module, as seen by `load_plugins`:
its import may raise; it may lack a callable `register`; its `register`
entry point may make some registrations and then raise; or it may succeed. -/
inductive PluginSpec where
  | importFails
  | noRegister
  | registerRaises (pre : List RegArgs)
  | registerOk (specs : List RegArgs)

/-- One module discovered in the plugins package. -/
structure PluginUnit where
  modName : String
  spec : PluginSpec

/-- Perform one plugin registration call. -/
def applyRegArgs (st : CatalogState) (r : RegArgs) : CatalogState :=
  (registerAction st r.action_id r.name r.description r.group r.func r.dangerous).2

/-- Perform a sequence of plugin registration calls. -/
def registerAll (st : CatalogState) : List RegArgs → CatalogState
  | [] => st
  | r :: rest => registerAll (applyRegArgs st r) rest

/-- Model of `load_plugins` body for one module: private modules are skipped; import
failures and `register()` exceptions are logged and skipped, keeping every
registration already made (including any made before the exception). -/
def loadPluginUnit (st : CatalogState) (u : PluginUnit) : CatalogState :=
  if pyStartsWith u.modName "_" then st
  else
    match u.spec with
    | .importFails => st
    | .noRegister => st
    | .registerRaises pre => registerAll st pre
    | .registerOk specs => registerAll st specs

/-- Model of `load_plugins` over the list of discovered modules, in discovery order. -/
def loadPlugins (st : CatalogState) : List PluginUnit → CatalogState
  | [] => st
  | u :: rest => loadPlugins (loadPluginUnit st u) rest

/-- The shipped `plugins/example_cleanup.py` module: its `register(actions)`
takes a positional dict argument, but `load_plugins` calls
`register_fn(registry=...)`, so the call raises `TypeError` (unexpected
keyword argument) before making any registration; `load_plugins` logs and
skips it. -/
def examplePlugin : PluginUnit :=
  { modName := "example_cleanup", spec := .registerRaises [] }

/-- Registry state after module initialisation of `core/actions.py`:
built-ins registered, then plugins loaded. -/
def initialCatalog : CatalogState :=
  loadPlugins registerBuiltins [examplePlugin]

/-- The `ACTIONS` mapping exported by `core/actions.py`. -/
def ACTIONS : List (String × Action) :=
  initialCatalog.entries

/-- Keyword list of the generic first cleanup branch of
`_fallback_choose_action_ids`. -/
def genericCleanupKeywords : List String :=
  ["cleanup", "clean up", "clean my pc", "temp", "cache", "junk", "space"]

/-- Cleanup `if/elif` chain of `_fallback_choose_action_ids` (lines 75-83). -/
def cleanupSelection (text : String) : List String :=
  if genericCleanupKeywords.any (fun k => pyIn k text) then ["cleanup_recommended"]
  else if pyIn "prefetch" text then ["cleanup_prefetch"]
  else if pyIn "windows update" text && pyIn "cache" text then ["cleanup_windows_update_cache"]
  else if pyIn "temp" text || pyIn "temporary" text then ["cleanup_temp"]
  else []

/-- Health block: four independent `if`s, each appending its id. -/
def healthSelection (text : String) : List String :=
  (if pyIn "sfc" text || pyIn "system file checker" text then ["health_sfc"] else []) ++
  (if pyIn "dism" text || pyIn "component store" text then ["health_dism"] else []) ++
  (if pyIn "chkdsk" text || pyIn "disk check" text then ["health_chkdsk"] else []) ++
  (if ["health", "corrupt", "integrity", "fix system files"].any (fun k => pyIn k text)
   then ["health_full"] else [])

/-- Network block. -/
def networkSelection (text : String) : List String :=
  if ["no internet", "network", "wifi", "ethernet", "dns", "winsock", "reset network"].any
      (fun k => pyIn k text)
  then ["network_reset"] else []

/-- Tools block: four independent `if`s. -/
def toolsSelection (text : String) : List String :=
  (if pyIn "task manager" text then ["tools_task_manager"] else []) ++
  (if pyIn "device manager" text then ["tools_device_manager"] else []) ++
  (if pyIn "services" text then ["tools_services"] else []) ++
  (if pyIn "system restore" text || pyIn "restore point" text then ["tools_system_restore"] else [])

/-- Privacy `if/elif` chain (lines 109-116). -/
def privacySelection (text : String) : List String :=
  if pyIn "privacy" text && pyIn "strict" text then ["privacy_strict"]
  else if pyIn "privacy" text && pyIn "default" text then ["privacy_restore_defaults"]
  else if pyIn "privacy" text then ["privacy_recommended"]
  else if pyIn "telemetry" text || pyIn "tracking" text then ["privacy_recommended"]
  else []

/-- Generic catch-alls applied only when nothing was selected. -/
def genericSelection (text : String) : List String :=
  if pyIn "clean" text then ["cleanup_recommended"]
  else if pyIn "fix" text || pyIn "repair" text then ["health_full"]
  else []

/-- Final loop of `_fallback_choose_action_ids`: de-duplicate preserving
first-occurrence order, keeping only ids present in `ACTIONS`.  The first
argument accumulates the `result` list (whose elements are exactly the
`seen` set of the source). -/
def dedupValidIds : List String → List String → List String
  | result, [] => result
  | result, aid :: rest =>
    if (pyDictGet ACTIONS aid).isSome && !(result.contains aid)
    then dedupValidIds (result ++ [aid]) rest
    else dedupValidIds result rest

/-- The `selected` list of `_fallback_choose_action_ids` after the five group
blocks have run, in append order. -/
def fallbackSelected (text : String) : List String :=
  cleanupSelection text ++ healthSelection text ++ networkSelection text ++
    toolsSelection text ++ privacySelection text

/-- Model of `selected` after the `if not selected:` generic catch-all step. -/
def selectedWithGeneric (text : String) : List String :=
  if (fallbackSelected text).isEmpty then genericSelection text else fallbackSelected text

/-- Model of `_fallback_choose_action_ids` from `core/ai_interpreter.py`. -/
def fallbackChooseActionIds (request : String) : List String :=
  dedupValidIds [] (selectedWithGeneric (pyLower request))

/-- One element of the JSON array parsed from a Gemini response: a string,
or a value of any other JSON type. -/
inductive JVal where
  | jstr (s : String)
  | jother
deriving DecidableEq

/-- Outcome of `_gemini_choose_action_ids` up to its parse boundary:
not configured, an exception anywhere in the call, a parsed response that is
not a list, or a parsed JSON list. -/
inductive GeminiOutcome where
  | unconfigured
  | failure
  | nonList
  | jlist (items : List JVal)

/-- Model of `_gemini_choose_action_ids`: every failure degrades to `[]`; from a JSON
list it keeps, in order, the entries that are strings and present in
`ACTIONS` (no de-duplication). -/
def geminiChooseActionIds : GeminiOutcome → List String
  | .unconfigured => []
  | .failure => []
  | .nonList => []
  | .jlist items =>
    items.filterMap (fun v =>
      match v with
      | .jstr s => if (pyDictGet ACTIONS s).isSome then some s else none
      | .jother => none)

/-- The `action_ids` list of `choose_actions_for_request`: the remote result
if non-empty, otherwise the keyword fallback on the stripped request. -/
def routedActionIds (g : GeminiOutcome) (stripped : String) : List String :=
  if (geminiChooseActionIds g).isEmpty then fallbackChooseActionIds stripped
  else geminiChooseActionIds g

/-- Model of `choose_actions_for_request` from `core/ai_interpreter.py`, with the
remote strategy abstracted by its outcome: empty input short-circuits, then
the surviving ids are mapped through `ACTIONS.get`, dropping misses. -/
def chooseActionsForRequest (g : GeminiOutcome) (request : String) : List Action :=
  if pyStrip request == "" then []
  else (routedActionIds g (pyStrip request)).filterMap (pyDictGet ACTIONS)

/-- Observable events of an execution surface.  `confirmAsked` and `skipped`
are included so that the absence of any confirmation in a trace is statable;
`interpret_command` itself only ever emits `start`/`success`/`error`. -/
inductive Event where
  | start (name : String)
  | success (name : String)
  | error (name : String) (msg : String)
  | confirmAsked (name : String)
  | skipped (name : String)
deriving DecidableEq

/-- Message appended for one step of the `interpret_command` loop. -/
def stepMessage (env : SysEnv) (a : Action) : String :=
  match a.func env with
  | .ok r => a.name ++ ": " ++ (if pyTruthyStr r then r.getD "" else "completed.")
  | .error e => a.name ++ ": ERROR - " ++ e

/-- Log events emitted for one step of the `interpret_command` loop. -/
def stepEvents (env : SysEnv) (a : Action) : List Event :=
  match a.func env with
  | .ok _ => [.start a.name, .success a.name]
  | .error e => [.start a.name, .error a.name e]

/-- The per-action loop of `interpret_command`: every action in the plan is
processed in order, a raised handler is recorded and does not abort the
remaining steps. -/
def runPlan (env : SysEnv) : List Action → List String × List Event
  | [] => ([], [])
  | a :: rest =>
    let tail := runPlan env rest
    (stepMessage env a :: tail.1, stepEvents env a ++ tail.2)

/-- Model of `interpret_command` from `core/ai_interpreter.py` (the GUI free-text
execution path): resolves the request and immediately executes every
resolved action, returning the joined summary and the emitted events. -/
def interpretCommand (g : GeminiOutcome) (request : String) (env : SysEnv) :
    String × List Event :=
  if (chooseActionsForRequest g request).isEmpty then
    ("I could not match that to any known action yet. Try rephrasing or be more specific.", [])
  else
    (joinLines (runPlan env (chooseActionsForRequest g request)).1,
     (runPlan env (chooseActionsForRequest g request)).2)

/-- Extract the name of a `start` event. -/
def startName : Event → Option String
  | .start n => some n
  | _ => none

/-- Body of `interpret_command_keyword` from `main.py` over the lowercased
text `t`: an `if/return` chain equivalent to `if/elif`. -/
def interpretCommandKeywordLower (t : String) : Option Action :=
  if pyIn "sfc" t || pyIn "system file" t then pyDictGet ACTIONS "run_sfc"
  else if pyIn "dism" t || pyIn "restore health" t || pyIn "image health" t then
    pyDictGet ACTIONS "run_dism_health_restore"
  else if pyIn "chkdsk" t || pyIn "check disk" t || pyIn "disk check" t then
    pyDictGet ACTIONS "run_chkdsk"
  else if pyIn "clean temp" t || pyIn "temp files" t || pyIn "temporary files" t then
    pyDictGet ACTIONS "clean_temp"
  else if pyIn "prefetch" t then pyDictGet ACTIONS "clean_prefetch"
  else if pyIn "software distribution" t || pyIn "windows update cache" t then
    pyDictGet ACTIONS "clean_software_distribution"
  else if pyIn "advanced" t && pyIn "network" t && pyIn "reset" t then
    pyDictGet ACTIONS "network_reset_advanced"
  else if pyIn "network" t && pyIn "reset" t then pyDictGet ACTIONS "network_reset_basic"
  else if pyIn "task manager" t then pyDictGet ACTIONS "open_task_manager"
  else if pyIn "device manager" t then pyDictGet ACTIONS "open_device_manager"
  else if pyIn "services" t then pyDictGet ACTIONS "open_services"
  else if pyIn "system restore" t || pyIn "restore point" t then
    pyDictGet ACTIONS "open_system_restore"
  else if pyIn "privacy" t || pyIn "telemetry" t || pyIn "tracking" t then
    if pyIn "strict" t || pyIn "lock down" t || pyIn "lockdown" t || pyIn "maximum" t ||
        pyIn "paranoid" t then
      pyDictGet ACTIONS "privacy_strict"
    else if pyIn "restore" t || pyIn "default" t || pyIn "defaults" t || pyIn "undo" t then
      pyDictGet ACTIONS "privacy_restore_defaults"
    else pyDictGet ACTIONS "privacy_recommended"
  else none

/-- Model of `interpret_command_keyword` from `main.py` (lower-cases, then matches). -/
def interpretCommandKeyword (text : String) : Option Action :=
  interpretCommandKeywordLower (pyLower text)

/-- The twelve action ids the health, cleanup, network, and tools branches of
`interpret_command_keyword` look up. -/
def cliNonPrivacyIds : List String :=
  ["run_sfc", "run_dism_health_restore", "run_chkdsk", "clean_temp", "clean_prefetch",
   "clean_software_distribution", "network_reset_advanced", "network_reset_basic",
   "open_task_manager", "open_device_manager", "open_services", "open_system_restore"]

/-- Identity of one registry value: `(root, path, name)` as in the `_BACKUP`
dictionary key of `core/privacy_tools.py`. -/
structure RegKey where
  root : Nat
  path : String
  name : String
deriving DecidableEq

/-- Model of `RegSetting` dataclass from `core/privacy_tools.py`. -/
structure RegSetting where
  root : Nat
  path : String
  name : String
  value : Int
  value_type : Nat
deriving DecidableEq

/-- Backup key of a setting. -/
def RegSetting.key (s : RegSetting) : RegKey :=
  { root := s.root, path := s.path, name := s.name }

/-- Process state of `privacy_tools`: the `_BACKUP` dict (value `none` means
the value did not exist when first observed) and the modelled machine
registry (a value absent from the list does not exist). -/
structure PrivacyState where
  backup : List (RegKey × Option Int)
  registry : List (RegKey × Int)

/-- Model of `_read_reg_value`: `none` when the value does not exist (read failures
are also collapsed to `none`, as in the source). -/
def readRegValue (st : PrivacyState) (k : RegKey) : Option Int :=
  pyDictGet st.registry k

/-- Model of `_backup_setting`: records the currently observed value, but only if the
key has never been backed up in this process (first-write-wins). -/
def backupSetting (st : PrivacyState) (s : RegSetting) : PrivacyState :=
  if (pyDictGet st.backup s.key).isSome then st
  else { st with backup := pyDictInsert st.backup s.key (readRegValue st s.key) }

/-- Python `str(x)` of an `Optional[int]`. -/
def showOptInt : Option Int → String
  | none => "None"
  | some v => toString v

/-- Model of `_apply_setting`: back up, read, write, read again, return the summary.
The registry write is modelled as succeeding on the modelled state. -/
def applySetting (st : PrivacyState) (s : RegSetting) : PrivacyState × String :=
  let st := backupSetting st s
  let before := readRegValue st s.key
  let st := { st with registry := pyDictInsert st.registry s.key s.value }
  let after := readRegValue st s.key
  (st, s.path ++ "\\" ++ s.name ++ ": " ++ showOptInt before ++ " → " ++ showOptInt after)

/-- Model of `_apply_settings`: apply a list of settings in order, collecting the
summaries. -/
def applySettings (st : PrivacyState) : List RegSetting → PrivacyState × List String
  | [] => (st, [])
  | s :: rest =>
    let r := applySetting st s
    let tail := applySettings r.1 rest
    (tail.1, r.2 :: tail.2)

/-- Model of `winreg.HKEY_CURRENT_USER`. -/
def HKEY_CURRENT_USER : Nat := 0x80000001

/-- Model of `winreg.HKEY_LOCAL_MACHINE`. -/
def HKEY_LOCAL_MACHINE : Nat := 0x80000002

/-- Model of `winreg.REG_DWORD`. -/
def REG_DWORD : Nat := 4

/-- Model of `winreg.REG_SZ`. -/
def REG_SZ : Nat := 1

/-- Model of `_RECOMMENDED_SETTINGS` from `core/privacy_tools.py`. -/
def RECOMMENDED_SETTINGS : List RegSetting :=
  [{ root := HKEY_CURRENT_USER,
     path := "Software\\Microsoft\\Windows\\CurrentVersion\\AdvertisingInfo",
     name := "Enabled", value := 0, value_type := REG_DWORD },
   { root := HKEY_CURRENT_USER,
     path := "Software\\Microsoft\\Windows\\CurrentVersion\\Privacy",
     name := "TailoredExperiencesWithDiagnosticDataEnabled", value := 0, value_type := REG_DWORD },
   { root := HKEY_CURRENT_USER,
     path := "Software\\Microsoft\\Windows\\CurrentVersion\\Explorer\\Advanced",
     name := "Start_TrackProgs", value := 0, value_type := REG_DWORD },
   { root := HKEY_CURRENT_USER,
     path := "Software\\Microsoft\\Windows\\CurrentVersion\\BackgroundAccessApplications",
     name := "GlobalUserDisabled", value := 1, value_type := REG_DWORD },
   { root := HKEY_LOCAL_MACHINE,
     path := "SYSTEM\\CurrentControlSet\\Services\\lfsvc\\Service\\Configuration",
     name := "Status", value := 0, value_type := REG_DWORD }]

/-- Model of `_STRICT_SETTINGS`: the recommended settings followed by four more. -/
def STRICT_SETTINGS : List RegSetting :=
  RECOMMENDED_SETTINGS ++
  [{ root := HKEY_LOCAL_MACHINE,
     path := "SOFTWARE\\Policies\\Microsoft\\Windows\\DataCollection",
     name := "AllowTelemetry", value := 0, value_type := REG_DWORD },
   { root := HKEY_LOCAL_MACHINE,
     path := "SOFTWARE\\Microsoft\\Windows\\Windows Error Reporting",
     name := "Disabled", value := 1, value_type := REG_DWORD },
   { root := HKEY_LOCAL_MACHINE,
     path := "SOFTWARE\\Microsoft\\Windows\\CurrentVersion\\CapabilityAccessManager\\ConsentStore\\webcam",
     name := "Value", value := 0, value_type := REG_SZ },
   { root := HKEY_LOCAL_MACHINE,
     path := "SOFTWARE\\Microsoft\\Windows\\CurrentVersion\\CapabilityAccessManager\\ConsentStore\\microphone",
     name := "Value", value := 0, value_type := REG_SZ }]

/-- Model of `apply_recommended_privacy_profile` (state transition part). -/
def applyRecommendedPrivacyProfile (st : PrivacyState) : PrivacyState × List String :=
  applySettings st RECOMMENDED_SETTINGS

/-- Model of `apply_strict_privacy_profile` (state transition part). -/
def applyStrictPrivacyProfile (st : PrivacyState) : PrivacyState × List String :=
  applySettings st STRICT_SETTINGS

/-- A concrete environment in which every system tool is available and
succeeds with a short summary (tool launchers return `None`). -/
def envAllOk : SysEnv :=
  { cleanup_temp_files := some (.ok (some "Temp cleaned."))
    cleanup_prefetch := some (.ok (some "Prefetch cleaned."))
    cleanup_windows_update_cache := some (.ok (some "Update cache cleaned."))
    run_sfc_scan := some (.ok (some "SFC done."))
    run_dism_health_scan := some (.ok (some "DISM done."))
    schedule_chkdsk := some (.ok (some "CHKDSK scheduled."))
    reset_network_stack := some (.ok (some "Network stack reset."))
    open_task_manager := some (.ok none)
    open_device_manager := some (.ok none)
    open_services_console := some (.ok none)
    open_system_restore := some (.ok none)
    apply_recommended_privacy_profile := some (.ok (some "Recommended privacy profile applied."))
    apply_strict_privacy_profile := some (.ok (some "Strict privacy profile applied."))
    restore_privacy_defaults := some (.ok (some "Privacy defaults restored.")) }

/-- Like `envAllOk` but the prefetch cleanup call raises. -/
def envPrefetchFails : SysEnv :=
  { envAllOk with cleanup_prefetch := some (.error "boom") }

/- ------------------------------------------------------------------ -/
/- Helper lemmas -/
/- ------------------------------------------------------------------ -/

theorem pyDictGet_insert_self {κ α : Type} [DecidableEq κ] (l : List (κ × α)) (k : κ) (v : α) :
    pyDictGet (pyDictInsert l k v) k = some v := by
  induction l with
  | nil => simp [pyDictInsert, pyDictGet]
  | cons p rest ih =>
    obtain ⟨k0, v0⟩ := p
    by_cases h : k0 = k
    · simp [pyDictInsert, pyDictGet, h]
    · simp [pyDictInsert, pyDictGet, h, ih]

theorem pyDictGet_insert_ne {κ α : Type} [DecidableEq κ] (l : List (κ × α)) (k k2 : κ) (v : α)
    (h : k ≠ k2) : pyDictGet (pyDictInsert l k v) k2 = pyDictGet l k2 := by
  induction l with
  | nil => simp [pyDictInsert, pyDictGet, h]
  | cons p rest ih =>
    obtain ⟨k0, v0⟩ := p
    by_cases hp : k0 = k
    · subst hp
      simp [pyDictInsert, pyDictGet, h]
    · by_cases hp2 : k0 = k2
      · simp [pyDictInsert, pyDictGet, hp, hp2, Ne.symm h]
      · simp [pyDictInsert, pyDictGet, hp, hp2, ih]

theorem pyDictGet_insert_isSome {κ α : Type} [DecidableEq κ] (l : List (κ × α)) (k k2 : κ) (v : α)
    (h : (pyDictGet l k2).isSome = true) :
    (pyDictGet (pyDictInsert l k v) k2).isSome = true := by
  by_cases hk : k = k2
  · subst hk; simp [pyDictGet_insert_self]
  · rw [pyDictGet_insert_ne l k k2 v hk]; exact h

theorem pyDictGet_mem {κ α : Type} [DecidableEq κ] {l : List (κ × α)} {k : κ} {v : α}
    (h : pyDictGet l k = some v) : (k, v) ∈ l := by
  induction l with
  | nil => simp [pyDictGet] at h
  | cons p rest ih =>
    obtain ⟨k0, v0⟩ := p
    by_cases hp : k0 = k
    · subst hp
      simp [pyDictGet] at h
      subst h
      exact List.mem_cons_self _ _
    · simp [pyDictGet, hp] at h
      exact List.mem_cons_of_mem _ (ih h)

theorem mem_pyDictInsert {κ α : Type} [DecidableEq κ] {l : List (κ × α)} {k : κ} {v : α}
    {p : κ × α} (h : p ∈ pyDictInsert l k v) : p ∈ l ∨ p = (k, v) := by
  induction l with
  | nil => simp [pyDictInsert] at h; right; exact h
  | cons q rest ih =>
    obtain ⟨k0, v0⟩ := q
    by_cases hq : k0 = k
    · subst hq
      simp only [pyDictInsert, if_pos rfl] at h
      rcases List.mem_cons.mp h with h | h
      · right; exact h
      · left; exact List.mem_cons_of_mem _ h
    · simp only [pyDictInsert, if_neg hq] at h
      rcases List.mem_cons.mp h with h | h
      · left; exact h ▸ List.mem_cons_self _ _
      · rcases ih h with h | h
        · left; exact List.mem_cons_of_mem _ h
        · right; exact h

theorem pyDictGet_isSome_iff_mem_keys {κ α : Type} [DecidableEq κ] {l : List (κ × α)} {k : κ} :
    (pyDictGet l k).isSome = true ↔ k ∈ l.map Prod.fst := by
  induction l with
  | nil => simp [pyDictGet]
  | cons p rest ih =>
    obtain ⟨k0, v0⟩ := p
    by_cases hp : k0 = k
    · subst hp; simp [pyDictGet]
    · simp [pyDictGet, hp, ih, Ne.symm hp]

theorem pyDictInsert_keys_of_isSome {κ α : Type} [DecidableEq κ] (l : List (κ × α)) (k : κ)
    (v : α) (h : (pyDictGet l k).isSome = true) :
    (pyDictInsert l k v).map Prod.fst = l.map Prod.fst := by
  induction l with
  | nil => simp [pyDictGet] at h
  | cons p rest ih =>
    obtain ⟨k0, v0⟩ := p
    by_cases hp : k0 = k
    · simp [pyDictInsert, hp]
    · simp only [pyDictGet, if_neg hp] at h
      simp [pyDictInsert, hp, ih h]

theorem pyDictInsert_keys_of_isNone {κ α : Type} [DecidableEq κ] (l : List (κ × α)) (k : κ)
    (v : α) (h : (pyDictGet l k).isSome = false) :
    (pyDictInsert l k v).map Prod.fst = l.map Prod.fst ++ [k] := by
  induction l with
  | nil => simp [pyDictInsert]
  | cons p rest ih =>
    obtain ⟨k0, v0⟩ := p
    by_cases hp : k0 = k
    · simp [pyDictGet, hp] at h
    · simp only [pyDictGet, if_neg hp] at h
      simp [pyDictInsert, hp, ih h]

theorem pyDictInsert_keys_nodup {κ α : Type} [DecidableEq κ] {l : List (κ × α)} {k : κ} {v : α}
    (h : (l.map Prod.fst).Nodup) : ((pyDictInsert l k v).map Prod.fst).Nodup := by
  by_cases hk : (pyDictGet l k).isSome = true
  · rw [pyDictInsert_keys_of_isSome l k v hk]; exact h
  · rw [pyDictInsert_keys_of_isNone l k v (by simpa using hk)]
    rw [List.nodup_append]
    refine ⟨h, List.nodup_singleton k, ?_⟩
    intro a ha hb
    simp at hb
    subst hb
    exact hk (pyDictGet_isSome_iff_mem_keys.mpr ha)

theorem dedupValidIds_acc_sub : ∀ (l acc : List String), acc ⊆ dedupValidIds acc l := by
  intro l
  induction l with
  | nil => intro acc; simp [dedupValidIds]
  | cons aid rest ih =>
    intro acc
    by_cases hc : ((pyDictGet ACTIONS aid).isSome && !(acc.contains aid)) = true
    · simp only [dedupValidIds, if_pos hc]
      exact fun a ha => ih (acc ++ [aid]) (List.mem_append_left _ ha)
    · simp only [dedupValidIds, if_neg hc]
      exact ih acc

theorem dedupValidIds_sub : ∀ (l acc : List String) (a : String),
    a ∈ dedupValidIds acc l → a ∈ acc ∨ a ∈ l := by
  intro l
  induction l with
  | nil => intro acc a h; simp [dedupValidIds] at h; left; exact h
  | cons aid rest ih =>
    intro acc a h
    by_cases hc : ((pyDictGet ACTIONS aid).isSome && !(acc.contains aid)) = true
    · simp only [dedupValidIds, if_pos hc] at h
      rcases ih (acc ++ [aid]) a h with h | h
      · rcases List.mem_append.mp h with h | h
        · left; exact h
        · right; simp at h; simp [h]
      · right; exact List.mem_cons_of_mem _ h
    · simp only [dedupValidIds, if_neg hc] at h
      rcases ih acc a h with h | h
      · left; exact h
      · right; exact List.mem_cons_of_mem _ h

theorem dedupValidIds_mem : ∀ (l acc : List String) (a : String),
    a ∈ l → (pyDictGet ACTIONS a).isSome = true → a ∈ dedupValidIds acc l := by
  intro l
  induction l with
  | nil => intro acc a h; simp at h
  | cons aid rest ih =>
    intro acc a h hv
    rcases List.mem_cons.mp h with h | h
    · subst h
      by_cases hc : ((pyDictGet ACTIONS a).isSome && !(acc.contains a)) = true
      · simp only [dedupValidIds, if_pos hc]
        exact dedupValidIds_acc_sub rest (acc ++ [a]) (List.mem_append_right _ (by simp))
      · simp only [dedupValidIds, if_neg hc]
        have ha : a ∈ acc := by
          by_cases hcon : acc.contains a = true
          · simpa using hcon
          · exfalso
            apply hc
            simp only [Bool.and_eq_true]
            refine ⟨hv, ?_⟩
            simp at hcon
            simp [hcon]
        exact dedupValidIds_acc_sub rest acc ha
    · by_cases hc : ((pyDictGet ACTIONS aid).isSome && !(acc.contains aid)) = true
      · simp only [dedupValidIds, if_pos hc]
        exact ih (acc ++ [aid]) a h hv
      · simp only [dedupValidIds, if_neg hc]
        exact ih acc a h hv

theorem dedupValidIds_nodup : ∀ (l acc : List String), acc.Nodup → (dedupValidIds acc l).Nodup := by
  intro l
  induction l with
  | nil => intro acc h; simpa [dedupValidIds] using h
  | cons aid rest ih =>
    intro acc h
    by_cases hc : ((pyDictGet ACTIONS aid).isSome && !(acc.contains aid)) = true
    · simp only [dedupValidIds, if_pos hc]
      refine ih (acc ++ [aid]) ?_
      rw [List.nodup_append]
      refine ⟨h, List.nodup_singleton aid, ?_⟩
      intro x hx hb
      simp at hb
      subst hb
      simp only [Bool.and_eq_true] at hc
      have h2 := hc.2
      simp at h2
      exact h2 hx
    · simp only [dedupValidIds, if_neg hc]
      exact ih acc h

theorem dedupValidIds_head : ∀ (l acc : List String), acc ≠ [] →
    (dedupValidIds acc l).head? = acc.head? := by
  intro l
  induction l with
  | nil => intro acc _; simp [dedupValidIds]
  | cons aid rest ih =>
    intro acc hne
    by_cases hc : ((pyDictGet ACTIONS aid).isSome && !(acc.contains aid)) = true
    · simp only [dedupValidIds, if_pos hc]
      rw [ih (acc ++ [aid]) (by simp)]
      cases acc with
      | nil => exact absurd rfl hne
      | cons x xs => simp
    · simp only [dedupValidIds, if_neg hc]
      exact ih acc hne

theorem dedupValidIds_head_valid (x : String) (rest : List String)
    (hx : (pyDictGet ACTIONS x).isSome = true) :
    (dedupValidIds [] (x :: rest)).head? = some x := by
  have hc : ((pyDictGet ACTIONS x).isSome && !(List.contains [] x)) = true := by
    simp [hx]
  simp only [dedupValidIds, if_pos hc]
  rw [dedupValidIds_head rest ([] ++ [x]) (by simp)]
  rfl

theorem mem_cleanupSelection {t a : String} (h : a ∈ cleanupSelection t) :
    a = "cleanup_recommended" ∨ a = "cleanup_prefetch" ∨ a = "cleanup_temp" := by
  unfold cleanupSelection at h
  by_cases h1 : genericCleanupKeywords.any (fun k => pyIn k t) = true
  · rw [if_pos h1] at h; simp at h; tauto
  · rw [if_neg h1] at h
    by_cases h2 : pyIn "prefetch" t = true
    · rw [if_pos h2] at h; simp at h; tauto
    · rw [if_neg h2] at h
      by_cases h3 : (pyIn "windows update" t && pyIn "cache" t) = true
      · exfalso
        have hc : pyIn "cache" t = true := by
          simp only [Bool.and_eq_true] at h3
          exact h3.2
        exact h1 (List.any_eq_true.mpr ⟨"cache", by decide, hc⟩)
      · rw [if_neg h3] at h
        by_cases h4 : (pyIn "temp" t || pyIn "temporary" t) = true
        · rw [if_pos h4] at h; simp at h; tauto
        · rw [if_neg h4] at h; simp at h

theorem not_mem_cleanupSelection (t : String) :
    "cleanup_windows_update_cache" ∉ cleanupSelection t := by
  intro h
  rcases mem_cleanupSelection h with h | h | h <;> exact absurd h (by decide)

theorem mem_healthSelection {t a : String} (h : a ∈ healthSelection t) :
    a = "health_sfc" ∨ a = "health_dism" ∨ a = "health_chkdsk" ∨ a = "health_full" := by
  unfold healthSelection at h
  rcases List.mem_append.mp h with h | h
  · rcases List.mem_append.mp h with h | h
    · rcases List.mem_append.mp h with h | h
      · split at h <;> simp at h <;> tauto
      · split at h <;> simp at h <;> tauto
    · split at h <;> simp at h <;> tauto
  · split at h <;> simp at h <;> tauto

theorem mem_networkSelection {t a : String} (h : a ∈ networkSelection t) :
    a = "network_reset" := by
  unfold networkSelection at h
  split at h <;> simp at h
  exact h

theorem mem_toolsSelection {t a : String} (h : a ∈ toolsSelection t) :
    a = "tools_task_manager" ∨ a = "tools_device_manager" ∨ a = "tools_services" ∨
      a = "tools_system_restore" := by
  unfold toolsSelection at h
  rcases List.mem_append.mp h with h | h
  · rcases List.mem_append.mp h with h | h
    · rcases List.mem_append.mp h with h | h
      · split at h <;> simp at h <;> tauto
      · split at h <;> simp at h <;> tauto
    · split at h <;> simp at h <;> tauto
  · split at h <;> simp at h <;> tauto

theorem mem_privacySelection {t a : String} (h : a ∈ privacySelection t) :
    a = "privacy_strict" ∨ a = "privacy_restore_defaults" ∨ a = "privacy_recommended" := by
  unfold privacySelection at h
  split at h
  · simp at h; tauto
  · split at h
    · simp at h; tauto
    · split at h
      · simp at h; tauto
      · split at h
        · simp at h; tauto
        · simp at h

theorem mem_genericSelection {t a : String} (h : a ∈ genericSelection t) :
    a = "cleanup_recommended" ∨ a = "health_full" := by
  unfold genericSelection at h
  split at h
  · simp at h; tauto
  · split at h
    · simp at h; tauto
    · simp at h

theorem joinLines_decompose : ∀ (msgs : List String) (m : String), m ∈ msgs →
    ∃ pre post, joinLines msgs = pre ++ m ++ post := by
  intro msgs
  induction msgs with
  | nil => intro m h; simp at h
  | cons x rest ih =>
    intro m h
    rcases List.mem_cons.mp h with h | h
    · subst h
      cases rest with
      | nil => exact ⟨"", "", by simp [joinLines]⟩
      | cons y ys =>
        refine ⟨"", "\n" ++ joinLines (y :: ys), ?_⟩
        show joinLines (m :: y :: ys) = "" ++ m ++ ("\n" ++ joinLines (y :: ys))
        simp [joinLines, String.append_assoc]
    · cases rest with
      | nil => simp at h
      | cons y ys =>
        obtain ⟨pre, post, hp⟩ := ih m h
        refine ⟨x ++ "\n" ++ pre, post, ?_⟩
        show joinLines (x :: y :: ys) = x ++ "\n" ++ pre ++ m ++ post
        have hj : joinLines (x :: y :: ys) = x ++ "\n" ++ joinLines (y :: ys) := by
          simp [joinLines]
        rw [hj, hp]
        simp [String.append_assoc]

theorem runPlan_fst (env : SysEnv) : ∀ actions : List Action,
    (runPlan env actions).1 = actions.map (stepMessage env) := by
  intro actions
  induction actions with
  | nil => simp [runPlan]
  | cons a rest ih => simp [runPlan, ih]

theorem stepEvents_starts (env : SysEnv) (a : Action) :
    (stepEvents env a).filterMap startName = [a.name] := by
  unfold stepEvents
  cases hfa : a.func env with
  | ok r => simp [startName]
  | error e => simp [startName]

theorem runPlan_starts (env : SysEnv) : ∀ actions : List Action,
    (runPlan env actions).2.filterMap startName = actions.map Action.name := by
  intro actions
  induction actions with
  | nil => simp [runPlan]
  | cons a rest ih =>
    show ((stepEvents env a ++ (runPlan env rest).2).filterMap startName) = _
    rw [List.filterMap_append, stepEvents_starts, ih]
    simp

theorem aggRun_calls : ∀ steps : List (String × Option HandlerResult),
    (aggRun steps).1 = (steps.filter (fun p => p.2.isSome)).map Prod.fst := by
  intro steps
  induction steps with
  | nil => simp [aggRun]
  | cons p rest ih =>
    obtain ⟨fname, step⟩ := p
    cases step with
    | none => simpa [aggRun] using ih
    | some r =>
      cases r with
      | ok v => simpa [aggRun] using ih
      | error e => simpa [aggRun] using ih

theorem aggRun_err_mem : ∀ (steps : List (String × Option HandlerResult)) (fname e : String),
    (fname, some (Except.error e)) ∈ steps → (fname ++ " failed: " ++ e) ∈ (aggRun steps).2 := by
  intro steps
  induction steps with
  | nil => intro fname e h; simp at h
  | cons p rest ih =>
    intro fname e h
    obtain ⟨gname, step⟩ := p
    rcases List.mem_cons.mp h with heq | hmem
    · have h1 : fname = gname := congrArg Prod.fst heq
      have h2 : some (Except.error e) = step := congrArg Prod.snd heq
      subst h1
      rw [← h2]
      show (fname ++ " failed: " ++ e) ∈ (fname ++ " failed: " ++ e) :: (aggRun rest).2
      exact List.mem_cons_self _ _
    · cases step with
      | none => simpa [aggRun] using ih fname e hmem
      | some r =>
        cases r with
        | ok v =>
          show _ ∈ (if pyTruthyStr v then [v.getD ""] else []) ++ (aggRun rest).2
          exact List.mem_append_right _ (ih fname e hmem)
        | error e2 =>
          show _ ∈ (gname ++ " failed: " ++ e2) :: (aggRun rest).2
          exact List.mem_cons_of_mem _ (ih fname e hmem)

theorem aggRun_ok_mem : ∀ (steps : List (String × Option HandlerResult)) (fname : String)
    (r : Option String), (fname, some (Except.ok r)) ∈ steps → pyTruthyStr r = true →
    r.getD "" ∈ (aggRun steps).2 := by
  intro steps
  induction steps with
  | nil => intro fname r h; simp at h
  | cons p rest ih =>
    intro fname r h ht
    obtain ⟨gname, step⟩ := p
    rcases List.mem_cons.mp h with heq | hmem
    · have h1 : fname = gname := congrArg Prod.fst heq
      have h2 : some (Except.ok r) = step := congrArg Prod.snd heq
      subst h1
      rw [← h2]
      show r.getD "" ∈ (if pyTruthyStr r then [r.getD ""] else []) ++ (aggRun rest).2
      rw [if_pos ht]
      exact List.mem_append_left _ (by simp)
    · cases step with
      | none => simpa [aggRun] using ih fname r hmem ht
      | some r2 =>
        cases r2 with
        | ok v =>
          show _ ∈ (if pyTruthyStr v then [v.getD ""] else []) ++ (aggRun rest).2
          exact List.mem_append_right _ (ih fname r hmem ht)
        | error e2 =>
          show _ ∈ (gname ++ " failed: " ++ e2) :: (aggRun rest).2
          exact List.mem_cons_of_mem _ (ih fname r hmem ht)

theorem registerAction_isSome_mono (st : CatalogState) (i a n d g : String)
    (f : SysEnv → HandlerResult) (b : Bool)
    (h : (pyDictGet st.entries i).isSome = true) :
    (pyDictGet (registerAction st a n d g f b).2.entries i).isSome = true := by
  unfold registerAction
  exact pyDictGet_insert_isSome st.entries a i _ h

theorem registerAll_isSome_mono : ∀ (specs : List RegArgs) (st : CatalogState) (i : String),
    (pyDictGet st.entries i).isSome = true →
    (pyDictGet (registerAll st specs).entries i).isSome = true := by
  intro specs
  induction specs with
  | nil => intro st i h; exact h
  | cons r rest ih =>
    intro st i h
    exact ih _ i (registerAction_isSome_mono st i r.action_id r.name r.description r.group
      r.func r.dangerous h)

theorem registerAll_mem : ∀ (specs : List RegArgs) (st : CatalogState) (r : RegArgs),
    r ∈ specs → (pyDictGet (registerAll st specs).entries r.action_id).isSome = true := by
  intro specs
  induction specs with
  | nil => intro st r h; simp at h
  | cons q rest ih =>
    intro st r h
    rcases List.mem_cons.mp h with h | h
    · subst h
      refine registerAll_isSome_mono rest _ r.action_id ?_
      unfold applyRegArgs registerAction
      simp [pyDictGet_insert_self]
    · exact ih _ r h

theorem loadPluginUnit_isSome_mono (st : CatalogState) (u : PluginUnit) (i : String)
    (h : (pyDictGet st.entries i).isSome = true) :
    (pyDictGet (loadPluginUnit st u).entries i).isSome = true := by
  unfold loadPluginUnit
  split
  · exact h
  · cases u.spec with
    | importFails => exact h
    | noRegister => exact h
    | registerRaises pre => exact registerAll_isSome_mono pre st i h
    | registerOk specs => exact registerAll_isSome_mono specs st i h

theorem loadPlugins_isSome_mono : ∀ (units : List PluginUnit) (st : CatalogState) (i : String),
    (pyDictGet st.entries i).isSome = true →
    (pyDictGet (loadPlugins st units).entries i).isSome = true := by
  intro units
  induction units with
  | nil => intro st i h; exact h
  | cons u rest ih =>
    intro st i h
    exact ih _ i (loadPluginUnit_isSome_mono st u i h)

theorem loadPlugins_append : ∀ (l₁ l₂ : List PluginUnit) (st : CatalogState),
    loadPlugins st (l₁ ++ l₂) = loadPlugins (loadPlugins st l₁) l₂ := by
  intro l₁
  induction l₁ with
  | nil => intro l₂ st; rfl
  | cons u rest ih =>
    intro l₂ st
    simp only [List.cons_append, loadPlugins]
    exact ih l₂ (loadPluginUnit st u)

theorem registerAction_keys_nodup (st : CatalogState) (a n d g : String)
    (f : SysEnv → HandlerResult) (b : Bool)
    (h : (st.entries.map Prod.fst).Nodup) :
    ((registerAction st a n d g f b).2.entries.map Prod.fst).Nodup := by
  unfold registerAction
  exact pyDictInsert_keys_nodup h

theorem registerAction_keysMatch (st : CatalogState) (a n d g : String)
    (f : SysEnv → HandlerResult) (b : Bool)
    (h : ∀ p ∈ st.entries, p.2.id = p.1) :
    ∀ p ∈ (registerAction st a n d g f b).2.entries, p.2.id = p.1 := by
  intro p hp
  unfold registerAction at hp
  simp only at hp
  rcases mem_pyDictInsert hp with hp | hp
  · exact h p hp
  · subst hp; rfl

theorem listActions_countP (st : CatalogState) (p : Action → Bool) :
    (listActions st).countP p = (st.entries.map Prod.snd).countP p := by
  unfold listActions
  exact (List.mergeSort_perm (st.entries.map Prod.snd) actionLeKey).countP_eq p

theorem applySetting_backup_preserved (st : PrivacyState) (s : RegSetting) (k : RegKey)
    (v : Option Int) (h : pyDictGet st.backup k = some v) :
    pyDictGet (applySetting st s).1.backup k = some v := by
  unfold applySetting backupSetting
  split
  · exact h
  · rename_i hno
    by_cases hk : s.key = k
    · subst hk
      rw [h] at hno
      simp at hno
    · simp only
      rw [pyDictGet_insert_ne st.backup s.key k _ hk]
      exact h

theorem applySettings_backup_preserved : ∀ (L : List RegSetting) (st : PrivacyState)
    (k : RegKey) (v : Option Int), pyDictGet st.backup k = some v →
    pyDictGet (applySettings st L).1.backup k = some v := by
  intro L
  induction L with
  | nil => intro st k v h; exact h
  | cons s rest ih =>
    intro st k v h
    exact ih _ k v (applySetting_backup_preserved st s k v h)

theorem applySetting_other_key (st : PrivacyState) (s : RegSetting) (k : RegKey)
    (hk : s.key ≠ k) :
    pyDictGet (applySetting st s).1.backup k = pyDictGet st.backup k ∧
      readRegValue (applySetting st s).1 k = readRegValue st k := by
  unfold applySetting backupSetting readRegValue
  constructor
  · split
    · rfl
    · simp only
      exact pyDictGet_insert_ne st.backup s.key k _ hk
  · split
    · simp only
      exact pyDictGet_insert_ne st.registry s.key k _ hk
    · simp only
      exact pyDictGet_insert_ne st.registry s.key k _ hk

theorem applySetting_fresh_key (st : PrivacyState) (s : RegSetting)
    (h : pyDictGet st.backup s.key = none) :
    pyDictGet (applySetting st s).1.backup s.key = some (readRegValue st s.key) := by
  unfold applySetting backupSetting
  rw [h]
  simp only [Option.isSome_none, Bool.false_eq_true, if_false]
  exact pyDictGet_insert_self st.backup s.key _

theorem applySettings_first_write : ∀ (L₁ : List RegSetting) (st : PrivacyState)
    (s : RegSetting) (L₂ : List RegSetting),
    pyDictGet st.backup s.key = none → (∀ s₁ ∈ L₁, s₁.key ≠ s.key) →
    pyDictGet (applySettings st (L₁ ++ s :: L₂)).1.backup s.key =
      some (readRegValue st s.key) := by
  intro L₁
  induction L₁ with
  | nil =>
    intro st s L₂ h _
    show pyDictGet (applySettings (applySetting st s).1 L₂).1.backup s.key = _
    exact applySettings_backup_preserved L₂ _ s.key _ (applySetting_fresh_key st s h)
  | cons s₁ rest ih =>
    intro st s L₂ h hne
    show pyDictGet (applySettings (applySetting st s₁).1 (rest ++ s :: L₂)).1.backup s.key = _
    have hk : s₁.key ≠ s.key := hne s₁ (List.mem_cons_self _ _)
    obtain ⟨hb, hr⟩ := applySetting_other_key st s₁ s.key hk
    rw [ih (applySetting st s₁).1 s L₂ (by rw [hb]; exact h)
      (fun x hx => hne x (List.mem_cons_of_mem _ hx)), hr]

theorem ACTIONS_keysMatch : ∀ p ∈ ACTIONS, p.2.id = p.1 := by
  have h : ACTIONS.all (fun p => p.2.id == p.1) = true := by decide
  intro p hp
  have := List.all_eq_true.mp h p hp
  simpa using this

theorem plan_get_self (ids : List String) (a : Action)
    (h : a ∈ ids.filterMap (pyDictGet ACTIONS)) : pyDictGet ACTIONS a.id = some a := by
  obtain ⟨aid, _, hg⟩ := List.mem_filterMap.mp h
  have hid : a.id = aid := by
    simpa using ACTIONS_keysMatch (aid, a) (pyDictGet_mem hg)
  rw [hid]
  exact hg

theorem plan_ids_nodup : ∀ ids : List String, ids.Nodup →
    ((ids.filterMap (pyDictGet ACTIONS)).map Action.id).Nodup := by
  intro ids
  induction ids with
  | nil => simp
  | cons x rest ih =>
    intro h
    rw [List.filterMap_cons]
    cases hg : pyDictGet ACTIONS x with
    | none => exact ih (List.nodup_cons.mp h).2
    | some a =>
      simp only [List.map_cons]
      rw [List.nodup_cons]
      refine ⟨?_, ih (List.nodup_cons.mp h).2⟩
      intro hmem
      obtain ⟨b, hb, hid⟩ := List.mem_map.mp hmem
      obtain ⟨aid, haid, hgb⟩ := List.mem_filterMap.mp hb
      have hax : a.id = x := by simpa using ACTIONS_keysMatch (x, a) (pyDictGet_mem hg)
      have hbaid : b.id = aid := by simpa using ACTIONS_keysMatch (aid, b) (pyDictGet_mem hgb)
      have haidx : aid = x := by rw [← hbaid, hid, hax]
      exact (List.nodup_cons.mp h).1 (haidx ▸ haid)

theorem fallback_nodup (request : String) : (fallbackChooseActionIds request).Nodup :=
  dedupValidIds_nodup _ [] List.nodup_nil

theorem isEmpty_false_of_mem {α : Type} {l : List α} {a : α} (h : a ∈ l) :
    l.isEmpty = false := by
  cases l with
  | nil => cases h
  | cons x xs => rfl

theorem privacySelection_strict (t : String) (hp : pyIn "privacy" t = true)
    (hs : pyIn "strict" t = true) : privacySelection t = ["privacy_strict"] := by
  simp [privacySelection, hp, hs]

theorem privacySelection_restore (t : String) (hp : pyIn "privacy" t = true)
    (hs : pyIn "strict" t = false) (hd : pyIn "default" t = true) :
    privacySelection t = ["privacy_restore_defaults"] := by
  simp [privacySelection, hp, hs, hd]

theorem privacySelection_recommended (t : String) (hp : pyIn "privacy" t = true)
    (hs : pyIn "strict" t = false) (hd : pyIn "default" t = false) :
    privacySelection t = ["privacy_recommended"] := by
  simp [privacySelection, hp, hs, hd]

theorem fallback_mem_of_privacySelection (request : String) (aid : String)
    (hsel : privacySelection (pyLower request) = [aid])
    (hv : (pyDictGet ACTIONS aid).isSome = true) :
    aid ∈ fallbackChooseActionIds request := by
  unfold fallbackChooseActionIds
  refine dedupValidIds_mem _ [] aid ?_ hv
  unfold selectedWithGeneric
  have hm : aid ∈ fallbackSelected (pyLower request) := by
    unfold fallbackSelected
    refine List.mem_append_right _ ?_
    rw [hsel]
    simp
  rw [if_neg (by rw [isEmpty_false_of_mem hm]; simp)]
  exact hm

theorem fallback_head_cleanup (request : String)
    (hc : genericCleanupKeywords.any (fun k => pyIn k (pyLower request)) = true) :
    (fallbackChooseActionIds request).head? = some "cleanup_recommended" := by
  unfold fallbackChooseActionIds selectedWithGeneric fallbackSelected
  have h1 : cleanupSelection (pyLower request) = ["cleanup_recommended"] := by
    unfold cleanupSelection
    rw [if_pos hc]
  rw [h1, List.singleton_append, if_neg (by simp)]
  exact dedupValidIds_head_valid "cleanup_recommended" _ (by decide)

theorem filterMap_head_valid (ids : List String) (x : String) (hh : ids.head? = some x)
    (hx : (pyDictGet ACTIONS x).isSome = true) :
    (ids.filterMap (pyDictGet ACTIONS)).head? = pyDictGet ACTIONS x := by
  cases ids with
  | nil => cases hh
  | cons y rest =>
    have hy : y = x := by simpa using hh
    subst hy
    rw [List.filterMap_cons]
    cases hg : pyDictGet ACTIONS y with
    | none => rw [hg] at hx; cases hx
    | some a => simp

theorem countP_beq_eq_one_of_nodup_mem {l : List String} {i : String}
    (hnd : l.Nodup) (hm : i ∈ l) : l.countP (fun k => k == i) = 1 := by
  induction l with
  | nil => cases hm
  | cons x xs ih =>
    rw [List.countP_cons]
    rcases List.mem_cons.mp hm with h | h
    · subst h
      have hz : xs.countP (fun k => k == i) = 0 := by
        rw [List.countP_eq_zero]
        intro a ha hb
        have : a = i := by simpa using hb
        exact (List.nodup_cons.mp hnd).1 (this ▸ ha)
      simp [hz]
    · have hne : x ≠ i := by
        rintro rfl
        exact (List.nodup_cons.mp hnd).1 h
      rw [ih (List.nodup_cons.mp hnd).2 h]
      simp [hne]

/- ------------------------------------------------------------------ -/
/- Claim theorems -/
/- ------------------------------------------------------------------ -/

/-- C1, counterexample: a remote (Gemini) response of
`["network_reset", "network_reset", "unknown_id"]` yields a plan that
contains the network-reset action twice — the remote path validates ids
against the catalog but does not deduplicate, so the claimed
"each action at most once" fails on the remote path. -/
theorem claim1_counterexample :
    (chooseActionsForRequest
        (.jlist [.jstr "network_reset", .jstr "network_reset", .jstr "unknown_id"])
        "reset my network").map Action.id = ["network_reset", "network_reset"] ∧
    ¬ ((chooseActionsForRequest
        (.jlist [.jstr "network_reset", .jstr "network_reset", .jstr "unknown_id"])
        "reset my network").map Action.id).Nodup :=
  ⟨by decide, by decide⟩

/-- C1, amended: for every request, every action in the returned plan is the
catalog entry stored under its own id (ids absent from the catalog are
dropped by both strategies, and `unknown_id` never survives); and whenever
the remote strategy contributes nothing, the keyword-fallback plan is
duplicate-free, preserving first-occurrence order.  The remote path performs
no deduplication (see the counterexample). -/
theorem claim1_plan_validity (g : GeminiOutcome) (request : String) :
    (∀ a ∈ chooseActionsForRequest g request, pyDictGet ACTIONS a.id = some a) ∧
    (geminiChooseActionIds g = [] →
      ((chooseActionsForRequest g request).map Action.id).Nodup) := by
  constructor
  · intro a ha
    unfold chooseActionsForRequest at ha
    split at ha
    · cases ha
    · exact plan_get_self _ a ha
  · intro hg
    unfold chooseActionsForRequest
    split
    · simp
    · unfold routedActionIds
      rw [hg]
      rw [if_pos (by rfl)]
      exact plan_ids_nodup _ (fallback_nodup _)

/-- C1, witness: at a concrete unconfigured-remote request the plan id list
is duplicate-free. -/
theorem claim1_witness :
    ((chooseActionsForRequest .unconfigured "tighten my privacy, no tracking").map
      Action.id).Nodup :=
  (claim1_plan_validity .unconfigured "tighten my privacy, no tracking").2 rfl

/-- C2: the GUI free-text path (`interpret_command`) executes the
danger-flagged `network_reset` action with no confirmation interaction of
any kind: at the request "reset network" (remote disabled) the emitted event
trace is exactly `[START, SUCCESS]` for the handler — it contains no
`confirmAsked` and no `skipped` event — although the catalog marks the
action dangerous.  This contradicts the claim that every executing surface
asks confirmation before invoking a dangerous handler. -/
theorem claim2_gui_no_confirmation :
    (pyDictGet ACTIONS "network_reset").map Action.dangerous = some true ∧
    (interpretCommand .unconfigured "reset network" envAllOk).2 =
      [.start "Reset Network Stack", .success "Reset Network Stack"] :=
  ⟨rfl, by decide⟩

/-- C3, counterexample: the request "windows update cache" (which contains
both "windows update" and "cache") resolves to `cleanup_recommended`, not to
`cleanup_windows_update_cache` as claimed: "cache" is also a keyword of the
generic first cleanup branch, which takes precedence in the `if/elif`
chain. -/
theorem claim3_counterexample :
    fallbackChooseActionIds "windows update cache" = ["cleanup_recommended"] ∧
    "cleanup_windows_update_cache" ∉ fallbackChooseActionIds "windows update cache" :=
  ⟨by decide, by decide⟩

/-- C3, amended: any request whose lowercased text contains "cache" (in
particular one containing both "windows update" and "cache") resolves in the
keyword strategy to the generic `cleanup_recommended` as first element,
because the broad first cleanup branch (whose keywords include "cache" and
"temp") takes precedence over the more specific `elif` branches; the
specific `cleanup_windows_update_cache` branch is unreachable, so that id
never appears in any keyword-fallback plan. -/
theorem claim3_amended (request : String) :
    (pyIn "cache" (pyLower request) = true →
      (fallbackChooseActionIds request).head? = some "cleanup_recommended") ∧
    "cleanup_windows_update_cache" ∉ fallbackChooseActionIds request := by
  constructor
  · intro h
    exact fallback_head_cleanup request (List.any_eq_true.mpr ⟨"cache", by decide, h⟩)
  · intro hmem
    unfold fallbackChooseActionIds at hmem
    rcases dedupValidIds_sub _ [] _ hmem with h | h
    · cases h
    · unfold selectedWithGeneric at h
      split at h
      · rcases mem_genericSelection h with h | h <;> exact absurd h (by decide)
      · unfold fallbackSelected at h
        rcases List.mem_append.mp h with h | h
        · rcases List.mem_append.mp h with h | h
          · rcases List.mem_append.mp h with h | h
            · rcases List.mem_append.mp h with h | h
              · exact not_mem_cleanupSelection _ h
              · rcases mem_healthSelection h with h | h | h | h <;> exact absurd h (by decide)
            · exact absurd (mem_networkSelection h) (by decide)
          · rcases mem_toolsSelection h with h | h | h | h <;> exact absurd h (by decide)
        · rcases mem_privacySelection h with h | h | h <;> exact absurd h (by decide)

/-- C3, witness: the amended statement at the concrete request
"deal with my windows update cache". -/
theorem claim3_witness :
    (fallbackChooseActionIds "deal with my windows update cache").head? =
      some "cleanup_recommended" :=
  (claim3_amended "deal with my windows update cache").1 (by decide)

/-- C4, counterexample: with the remote strategy disabled,
`resolve("lock down my privacy, maximum")` returns the recommended privacy
action, not the strict one: the qualifier branch tests only the literal
substring "strict" (and "default"), and "maximum" is neither. -/
theorem claim4_counterexample :
    (chooseActionsForRequest .unconfigured "lock down my privacy, maximum").map
       Action.id = ["privacy_recommended"] ∧
    "privacy_strict" ∉ (chooseActionsForRequest .unconfigured
      "lock down my privacy, maximum").map Action.id :=
  ⟨by decide, by decide⟩

/-- C4, amended: the privacy branch of the keyword strategy selects the
strict profile only when the text contains the literal "strict", the restore
action when it contains "privacy" and "default" (but not "strict"), and the
recommended profile for any other privacy-containing text — so
"lock down my privacy, maximum" selects `privacy_recommended`. -/
theorem claim4_amended (request : String) :
    (pyIn "privacy" (pyLower request) = true → pyIn "strict" (pyLower request) = true →
      "privacy_strict" ∈ fallbackChooseActionIds request) ∧
    (pyIn "privacy" (pyLower request) = true → pyIn "strict" (pyLower request) = false →
      pyIn "default" (pyLower request) = true →
      "privacy_restore_defaults" ∈ fallbackChooseActionIds request) ∧
    (pyIn "privacy" (pyLower request) = true → pyIn "strict" (pyLower request) = false →
      pyIn "default" (pyLower request) = false →
      "privacy_recommended" ∈ fallbackChooseActionIds request) := by
  refine ⟨?_, ?_, ?_⟩
  · intro hp hs
    exact fallback_mem_of_privacySelection request _
      (privacySelection_strict _ hp hs) (by decide)
  · intro hp hs hd
    exact fallback_mem_of_privacySelection request _
      (privacySelection_restore _ hp hs hd) (by decide)
  · intro hp hs hd
    exact fallback_mem_of_privacySelection request _
      (privacySelection_recommended _ hp hs hd) (by decide)

/-- C4, witness: the amended statement applied at the request of the
counterexample: "lock down my privacy, maximum" yields the recommended
profile. -/
theorem claim4_witness :
    "privacy_recommended" ∈ fallbackChooseActionIds "lock down my privacy, maximum" :=
  (claim4_amended "lock down my privacy, maximum").2.2 (by decide) (by decide) (by decide)

/-- C5: with the remote strategy disabled, any non-blank request whose
stripped, lowercased text contains one of the generic cleanup keywords
("cleanup", "clean up", "clean my pc", "temp", "cache", "junk", "space")
resolves to a plan whose first element is the catalog entry of the aggregate
`cleanup_recommended` action (which exists), not a narrow cleanup action. -/
theorem claim5_generic_cleanup_first (request : String)
    (hne : pyStrip request ≠ "")
    (hc : genericCleanupKeywords.any (fun k => pyIn k (pyLower (pyStrip request))) = true) :
    (chooseActionsForRequest .unconfigured request).head? =
      pyDictGet ACTIONS "cleanup_recommended" ∧
    (pyDictGet ACTIONS "cleanup_recommended").isSome = true := by
  refine ⟨?_, by decide⟩
  unfold chooseActionsForRequest
  rw [if_neg (by simp [hne])]
  unfold routedActionIds
  rw [if_pos (by rfl)]
  exact filterMap_head_valid _ _ (fallback_head_cleanup _ hc) (by decide)

/-- C5, witness: the concrete request "clean up my temp files and cache". -/
theorem claim5_witness :
    (chooseActionsForRequest .unconfigured "clean up my temp files and cache").head? =
      pyDictGet ACTIONS "cleanup_recommended" :=
  (claim5_generic_cleanup_first "clean up my temp files and cache"
    (by decide) (by decide)).1

/-- C6: multi-step execution never aborts and keeps all messages.  For the
`interpret_command` loop: when the plan is non-empty, the emitted event
trace starts every action of the plan in plan order (so a failing handler
does not prevent any later handler from being invoked), and for every action
of the plan the combined summary string contains its step text — the inline
`<name>: ERROR - <e>` failure text when its handler raised, and the
`<name>: <result>` / `<name>: completed.` success text otherwise.  For the
aggregate step runner shared by `_cleanup_recommended` and `_health_full`:
every available step function is called, in list order, regardless of
earlier failures, and the collected messages contain each step failure text
`<fname> failed: <e>` and each truthy step result. -/
theorem claim6_plan_failures_not_aborting (g : GeminiOutcome) (request : String)
    (env : SysEnv) (steps : List (String × Option HandlerResult))
    (hne : (chooseActionsForRequest g request).isEmpty = false) :
    ((interpretCommand g request env).2.filterMap startName =
        (chooseActionsForRequest g request).map Action.name) ∧
    (∀ a ∈ chooseActionsForRequest g request, ∀ e, a.func env = .error e →
        ∃ pre post, (interpretCommand g request env).1 =
          pre ++ (a.name ++ ": ERROR - " ++ e) ++ post) ∧
    (∀ a ∈ chooseActionsForRequest g request, ∀ r, a.func env = .ok r →
        ∃ pre post, (interpretCommand g request env).1 =
          pre ++ (a.name ++ ": " ++ (if pyTruthyStr r then r.getD "" else "completed.")) ++ post) ∧
    ((aggRun steps).1 = (steps.filter (fun p => p.2.isSome)).map Prod.fst) ∧
    (∀ fname e, (fname, some (Except.error e)) ∈ steps →
        (fname ++ " failed: " ++ e) ∈ (aggRun steps).2) ∧
    (∀ fname r, (fname, some (Except.ok r)) ∈ steps → pyTruthyStr r = true →
        r.getD "" ∈ (aggRun steps).2) := by
  have hic : interpretCommand g request env =
      (joinLines (runPlan env (chooseActionsForRequest g request)).1,
       (runPlan env (chooseActionsForRequest g request)).2) := by
    unfold interpretCommand
    rw [if_neg (by rw [hne]; simp)]
  refine ⟨?_, ?_, ?_, aggRun_calls steps, aggRun_err_mem steps, aggRun_ok_mem steps⟩
  · rw [hic]
    exact runPlan_starts env _
  · intro a ha e hfa
    rw [hic]
    have hmsg : stepMessage env a = a.name ++ ": ERROR - " ++ e := by
      unfold stepMessage
      rw [hfa]
    have hm : stepMessage env a ∈ (runPlan env (chooseActionsForRequest g request)).1 := by
      rw [runPlan_fst]
      exact List.mem_map_of_mem _ ha
    obtain ⟨pre, post, hp⟩ := joinLines_decompose _ _ hm
    exact ⟨pre, post, by rw [← hmsg]; exact hp⟩
  · intro a ha r hfa
    rw [hic]
    have hmsg : stepMessage env a =
        a.name ++ ": " ++ (if pyTruthyStr r then r.getD "" else "completed.") := by
      unfold stepMessage
      rw [hfa]
    have hm : stepMessage env a ∈ (runPlan env (chooseActionsForRequest g request)).1 := by
      rw [runPlan_fst]
      exact List.mem_map_of_mem _ ha
    obtain ⟨pre, post, hp⟩ := joinLines_decompose _ _ hm
    exact ⟨pre, post, by rw [← hmsg]; exact hp⟩

/-- C6, witness: a concrete 4-step plan (via a remote response naming four
actions) in an environment where step 2 (prefetch cleanup) raises: all four
steps are started in order, and the aggregate runner on a concrete 4-step
list with a failing second step calls all four available functions and keeps
the failure message. -/
theorem claim6_witness :
    ((interpretCommand
        (.jlist [.jstr "cleanup_temp", .jstr "cleanup_prefetch", .jstr "network_reset",
                 .jstr "tools_task_manager"])
        "run maintenance" envPrefetchFails).2.filterMap startName =
      ["Clean Temp Files", "Clean Prefetch Folder", "Reset Network Stack",
       "Open Task Manager"]) ∧
    ((aggRun [("f1", some (.ok (some "one ok"))), ("f2", some (.error "boom")),
              ("f3", some (.ok (some "three ok"))), ("f4", some (.ok (some "four ok")))]).1 =
      ["f1", "f2", "f3", "f4"]) ∧
    (("f2" ++ " failed: " ++ "boom") ∈
      (aggRun [("f1", some (.ok (some "one ok"))), ("f2", some (.error "boom")),
               ("f3", some (.ok (some "three ok"))), ("f4", some (.ok (some "four ok")))]).2) := by
  have h := claim6_plan_failures_not_aborting
    (.jlist [.jstr "cleanup_temp", .jstr "cleanup_prefetch", .jstr "network_reset",
             .jstr "tools_task_manager"])
    "run maintenance" envPrefetchFails
    [("f1", some (.ok (some "one ok"))), ("f2", some (.error "boom")),
     ("f3", some (.ok (some "three ok"))), ("f4", some (.ok (some "four ok")))]
    (by decide)
  refine ⟨h.1.trans (by decide), h.2.2.2.1.trans (by decide), ?_⟩
  exact h.2.2.2.2.1 "f2" "boom" (List.mem_cons_of_mem _ (List.mem_cons_self _ _))

/-- C7: plugin-loading failure isolation.  Starting from any registry state
and any discovery order: (a) an id already registered stays present after
loading any list of plugin units, whatever mix of import failures and
raising `register()` entry points it contains (no unit removes built-ins or
earlier registrations); and (b) a well-behaved (non-private) plugin unit
placed after arbitrary units — including units whose import or `register()`
raises — still gets every one of its registrations into the catalog, and
previously registered ids also survive. -/
theorem claim7_plugin_isolation (st : CatalogState) (us₁ us₂ : List PluginUnit)
    (m : String) (specs : List RegArgs) (r : RegArgs) (i : String)
    (hi : (pyDictGet st.entries i).isSome = true)
    (hm : pyStartsWith m "_" = false) (hr : r ∈ specs) :
    ((pyDictGet (loadPlugins st (us₁ ++ us₂)).entries i).isSome = true) ∧
    ((pyDictGet (loadPlugins st
        (us₁ ++ ⟨m, .registerOk specs⟩ :: us₂)).entries r.action_id).isSome = true) ∧
    ((pyDictGet (loadPlugins st
        (us₁ ++ ⟨m, .registerOk specs⟩ :: us₂)).entries i).isSome = true) := by
  refine ⟨?_, ?_, ?_⟩
  · rw [loadPlugins_append]
    exact loadPlugins_isSome_mono _ _ _ (loadPlugins_isSome_mono _ _ _ hi)
  · rw [loadPlugins_append]
    show (pyDictGet (loadPlugins
      (loadPluginUnit (loadPlugins st us₁) ⟨m, .registerOk specs⟩) us₂).entries
        r.action_id).isSome = true
    refine loadPlugins_isSome_mono us₂ _ _ ?_
    unfold loadPluginUnit
    rw [if_neg (by rw [hm]; simp)]
    exact registerAll_mem specs _ r hr
  · rw [loadPlugins_append]
    show (pyDictGet (loadPlugins
      (loadPluginUnit (loadPlugins st us₁) ⟨m, .registerOk specs⟩) us₂).entries
        i).isSome = true
    refine loadPlugins_isSome_mono us₂ _ _ ?_
    exact loadPluginUnit_isSome_mono _ _ _ (loadPlugins_isSome_mono _ _ _ hi)

/-- C7, witness: after the built-in registration, loading a plugin whose
`register()` raises followed by a well-behaved plugin, the well-behaved
plugin id is present and the built-in `cleanup_temp` survives. -/
theorem claim7_witness :
    ((pyDictGet (loadPlugins registerBuiltins
        ([⟨"badplugin", .registerRaises []⟩] ++
          ⟨"goodplugin", .registerOk
            [⟨"deep_cleanup", "Deep Cleanup", "Runs a deeper cleanup.", "cleanup",
              fun _ => .ok none, false⟩]⟩ :: [])).entries "deep_cleanup").isSome = true) ∧
    ((pyDictGet (loadPlugins registerBuiltins
        ([⟨"badplugin", .registerRaises []⟩] ++
          ⟨"goodplugin", .registerOk
            [⟨"deep_cleanup", "Deep Cleanup", "Runs a deeper cleanup.", "cleanup",
              fun _ => .ok none, false⟩]⟩ :: [])).entries "cleanup_temp").isSome = true) := by
  have h := claim7_plugin_isolation registerBuiltins
    [⟨"badplugin", .registerRaises []⟩] [] "goodplugin"
    [⟨"deep_cleanup", "Deep Cleanup", "Runs a deeper cleanup.", "cleanup",
      fun _ => .ok none, false⟩]
    ⟨"deep_cleanup", "Deep Cleanup", "Runs a deeper cleanup.", "cleanup",
      fun _ => .ok none, false⟩
    "cleanup_temp" (by decide) (by decide) (List.mem_singleton.mpr rfl)
  exact ⟨h.2.1, h.2.2⟩

/-- C8: `register_action` is a total function (registration always
succeeds), and registering a second action under an existing id replaces the
previous entry: afterwards lookup of the id returns the new definition,
`list_actions()` contains exactly one entry with that id, and the overwrite
warning for the id was recorded (not silently dropped).  The two hypotheses
are the registry invariants (unique keys; the stored action carries its key
as id), which hold of every state built by `register_action`. -/
theorem claim8_reregistration_replaces (st : CatalogState) (i n₁ d₁ g₁ n₂ d₂ g₂ : String)
    (f₁ f₂ : SysEnv → HandlerResult) (b₁ b₂ : Bool)
    (hnd : (st.entries.map Prod.fst).Nodup)
    (hkm : ∀ p ∈ st.entries, p.2.id = p.1) :
    pyDictGet (registerAction (registerAction st i n₁ d₁ g₁ f₁ b₁).2
        i n₂ d₂ g₂ f₂ b₂).2.entries i =
      some { id := i, name := n₂, description := d₂, group := g₂,
             dangerous := b₂, func := f₂ } ∧
    (listActions (registerAction (registerAction st i n₁ d₁ g₁ f₁ b₁).2
        i n₂ d₂ g₂ f₂ b₂).2).countP (fun a => a.id == i) = 1 ∧
    i ∈ (registerAction (registerAction st i n₁ d₁ g₁ f₁ b₁).2
        i n₂ d₂ g₂ f₂ b₂).2.warnings := by
  have hs1 : (pyDictGet (registerAction st i n₁ d₁ g₁ f₁ b₁).2.entries i).isSome = true := by
    show (pyDictGet (pyDictInsert st.entries i _) i).isSome = true
    rw [pyDictGet_insert_self]
    rfl
  refine ⟨?_, ?_, ?_⟩
  · show pyDictGet (pyDictInsert (registerAction st i n₁ d₁ g₁ f₁ b₁).2.entries i _) i = _
    exact pyDictGet_insert_self _ i _
  · rw [listActions_countP, List.countP_map]
    have hkm₂ : ∀ p ∈ (registerAction (registerAction st i n₁ d₁ g₁ f₁ b₁).2
        i n₂ d₂ g₂ f₂ b₂).2.entries, p.2.id = p.1 :=
      registerAction_keysMatch _ _ _ _ _ _ _ (registerAction_keysMatch _ _ _ _ _ _ _ hkm)
    rw [List.countP_congr (q := fun p => p.1 == i) (fun p hp => by simp [hkm₂ p hp])]
    rw [show (fun p : String × Action => p.1 == i) =
        ((fun k => k == i) ∘ Prod.fst) from rfl, ← List.countP_map]
    refine countP_beq_eq_one_of_nodup_mem ?_ ?_
    · exact registerAction_keys_nodup _ _ _ _ _ _ _
        (registerAction_keys_nodup _ _ _ _ _ _ _ hnd)
    · refine pyDictGet_isSome_iff_mem_keys.mp ?_
      show (pyDictGet (pyDictInsert (registerAction st i n₁ d₁ g₁ f₁ b₁).2.entries i _)
        i).isSome = true
      rw [pyDictGet_insert_self]
      rfl
  · show i ∈ (if (pyDictGet (registerAction st i n₁ d₁ g₁ f₁ b₁).2.entries i).isSome = true
      then (registerAction st i n₁ d₁ g₁ f₁ b₁).2.warnings ++ [i]
      else (registerAction st i n₁ d₁ g₁ f₁ b₁).2.warnings)
    rw [if_pos hs1]
    exact List.mem_append_right _ (by simp)

/-- C8, witness: registering twice under the same id in an initially empty
registry: lookup returns the second definition, the sorted listing counts
the id once, and the warning was recorded. -/
theorem claim8_witness :
    pyDictGet (registerAction (registerAction ⟨[], []⟩ "x" "First" "d1" "tools"
        (fun _ => .ok none) false).2 "x" "Second" "d2" "cleanup"
        (fun _ => .ok (some "done")) true).2.entries "x" =
      some { id := "x", name := "Second", description := "d2", group := "cleanup",
             dangerous := true, func := fun _ => .ok (some "done") } ∧
    (listActions (registerAction (registerAction ⟨[], []⟩ "x" "First" "d1" "tools"
        (fun _ => .ok none) false).2 "x" "Second" "d2" "cleanup"
        (fun _ => .ok (some "done")) true).2).countP (fun a => a.id == "x") = 1 ∧
    "x" ∈ (registerAction (registerAction ⟨[], []⟩ "x" "First" "d1" "tools"
        (fun _ => .ok none) false).2 "x" "Second" "d2" "cleanup"
        (fun _ => .ok (some "done")) true).2.warnings :=
  claim8_reregistration_replaces ⟨[], []⟩ "x" "First" "d1" "tools" "Second" "d2" "cleanup"
    (fun _ => .ok none) (fun _ => .ok (some "done")) false true
    (by simp) (by simp)

/-- C9: the privacy backup record is first-write-wins.  (a) Once a backup
entry for a registry key holds a value, applying any further sequence of
settings leaves that stored value unchanged (the entry is written at most
once per process).  (b) For a key not yet backed up, applying a sequence in
which the first setting touching the key is `s` stores exactly the registry
value observed before the whole sequence ran — the value read before the
first application touched the key. -/
theorem claim9_backup_first_write_wins (st : PrivacyState) (L : List RegSetting)
    (k : RegKey) (v : Option Int) (L₁ L₂ : List RegSetting) (s : RegSetting)
    (hkv : pyDictGet st.backup k = some v)
    (hfresh : pyDictGet st.backup s.key = none)
    (hL₁ : ∀ s₁ ∈ L₁, s₁.key ≠ s.key) :
    pyDictGet (applySettings st L).1.backup k = some v ∧
    pyDictGet (applySettings st (L₁ ++ s :: L₂)).1.backup s.key =
      some (readRegValue st s.key) :=
  ⟨applySettings_backup_preserved L st k v hkv,
   applySettings_first_write L₁ st s L₂ hfresh hL₁⟩

/-- C9, witness: a concrete state whose backup already holds an entry, with
the recommended privacy profile applied; and a fresh key (the first
recommended setting, targeting the advertising-id value) first backed up
with the pre-run registry value. -/
theorem claim9_witness :
    pyDictGet (applySettings
        ⟨[(⟨0, "p", "n"⟩, some 7)],
         [(⟨HKEY_CURRENT_USER,
            "Software\\Microsoft\\Windows\\CurrentVersion\\AdvertisingInfo",
            "Enabled"⟩, 1)]⟩
        RECOMMENDED_SETTINGS).1.backup ⟨0, "p", "n"⟩ = some (some 7) ∧
    pyDictGet (applySettings
        ⟨[(⟨0, "p", "n"⟩, some 7)],
         [(⟨HKEY_CURRENT_USER,
            "Software\\Microsoft\\Windows\\CurrentVersion\\AdvertisingInfo",
            "Enabled"⟩, 1)]⟩
        ([] ++ { root := HKEY_CURRENT_USER,
                 path := "Software\\Microsoft\\Windows\\CurrentVersion\\AdvertisingInfo",
                 name := "Enabled", value := 0, value_type := REG_DWORD } ::
          RECOMMENDED_SETTINGS.tail)).1.backup
      { root := HKEY_CURRENT_USER,
        path := "Software\\Microsoft\\Windows\\CurrentVersion\\AdvertisingInfo",
        name := "Enabled" } =
      some (readRegValue
        ⟨[(⟨0, "p", "n"⟩, some 7)],
         [(⟨HKEY_CURRENT_USER,
            "Software\\Microsoft\\Windows\\CurrentVersion\\AdvertisingInfo",
            "Enabled"⟩, 1)]⟩
        { root := HKEY_CURRENT_USER,
          path := "Software\\Microsoft\\Windows\\CurrentVersion\\AdvertisingInfo",
          name := "Enabled" }) := by
  have h := claim9_backup_first_write_wins
    ⟨[(⟨0, "p", "n"⟩, some 7)],
     [(⟨HKEY_CURRENT_USER,
        "Software\\Microsoft\\Windows\\CurrentVersion\\AdvertisingInfo",
        "Enabled"⟩, 1)]⟩
    RECOMMENDED_SETTINGS ⟨0, "p", "n"⟩ (some 7) []
    RECOMMENDED_SETTINGS.tail
    { root := HKEY_CURRENT_USER,
      path := "Software\\Microsoft\\Windows\\CurrentVersion\\AdvertisingInfo",
      name := "Enabled", value := 0, value_type := REG_DWORD }
    (by decide) (by decide) (by simp)
  exact ⟨h.1, h.2⟩

/-- C10: for every input string, the health, cleanup, network, and tools
branches of the CLI keyword interpreter in `main.py` look up ids that are
not registered in the catalog (all twelve are absent), so
`interpret_command_keyword` either returns `None` or one of the three
privacy lookups — which are the only branch results that can be a real
action (the three privacy ids are registered). -/
theorem claim10_cli_keyword_ids_dead :
    (cliNonPrivacyIds.all (fun i => (pyDictGet ACTIONS i).isNone)) = true ∧
    ((pyDictGet ACTIONS "privacy_strict").isSome &&
     (pyDictGet ACTIONS "privacy_restore_defaults").isSome &&
     (pyDictGet ACTIONS "privacy_recommended").isSome) = true ∧
    ∀ t : String, interpretCommandKeyword t = none ∨
      interpretCommandKeyword t = pyDictGet ACTIONS "privacy_strict" ∨
      interpretCommandKeyword t = pyDictGet ACTIONS "privacy_restore_defaults" ∨
      interpretCommandKeyword t = pyDictGet ACTIONS "privacy_recommended" := by
  refine ⟨by decide, by decide, ?_⟩
  intro t
  unfold interpretCommandKeyword interpretCommandKeywordLower
  by_cases h1 : (pyIn "sfc" (pyLower t) || pyIn "system file" (pyLower t)) = true
  · rw [if_pos h1]
    exact Or.inl rfl
  · rw [if_neg h1]
    by_cases h2 : (pyIn "dism" (pyLower t) || pyIn "restore health" (pyLower t) || pyIn "image health" (pyLower t)) = true
    · rw [if_pos h2]
      exact Or.inl rfl
    · rw [if_neg h2]
      by_cases h3 : (pyIn "chkdsk" (pyLower t) || pyIn "check disk" (pyLower t) || pyIn "disk check" (pyLower t)) = true
      · rw [if_pos h3]
        exact Or.inl rfl
      · rw [if_neg h3]
        by_cases h4 : (pyIn "clean temp" (pyLower t) || pyIn "temp files" (pyLower t) || pyIn "temporary files" (pyLower t)) = true
        · rw [if_pos h4]
          exact Or.inl rfl
        · rw [if_neg h4]
          by_cases h5 : pyIn "prefetch" (pyLower t) = true
          · rw [if_pos h5]
            exact Or.inl rfl
          · rw [if_neg h5]
            by_cases h6 : (pyIn "software distribution" (pyLower t) || pyIn "windows update cache" (pyLower t)) = true
            · rw [if_pos h6]
              exact Or.inl rfl
            · rw [if_neg h6]
              by_cases h7 : (pyIn "advanced" (pyLower t) && pyIn "network" (pyLower t) && pyIn "reset" (pyLower t)) = true
              · rw [if_pos h7]
                exact Or.inl rfl
              · rw [if_neg h7]
                by_cases h8 : (pyIn "network" (pyLower t) && pyIn "reset" (pyLower t)) = true
                · rw [if_pos h8]
                  exact Or.inl rfl
                · rw [if_neg h8]
                  by_cases h9 : pyIn "task manager" (pyLower t) = true
                  · rw [if_pos h9]
                    exact Or.inl rfl
                  · rw [if_neg h9]
                    by_cases h10 : pyIn "device manager" (pyLower t) = true
                    · rw [if_pos h10]
                      exact Or.inl rfl
                    · rw [if_neg h10]
                      by_cases h11 : pyIn "services" (pyLower t) = true
                      · rw [if_pos h11]
                        exact Or.inl rfl
                      · rw [if_neg h11]
                        by_cases h12 : (pyIn "system restore" (pyLower t) || pyIn "restore point" (pyLower t)) = true
                        · rw [if_pos h12]
                          exact Or.inl rfl
                        · rw [if_neg h12]
                          by_cases h13 : (pyIn "privacy" (pyLower t) || pyIn "telemetry" (pyLower t) || pyIn "tracking" (pyLower t)) = true
                          · rw [if_pos h13]
                            by_cases h14 : (pyIn "strict" (pyLower t) || pyIn "lock down" (pyLower t) || pyIn "lockdown" (pyLower t) || pyIn "maximum" (pyLower t) || pyIn "paranoid" (pyLower t)) = true
                            · rw [if_pos h14]
                              exact Or.inr (Or.inl rfl)
                            · rw [if_neg h14]
                              by_cases h15 : (pyIn "restore" (pyLower t) || pyIn "default" (pyLower t) || pyIn "defaults" (pyLower t) || pyIn "undo" (pyLower t)) = true
                              · rw [if_pos h15]
                                exact Or.inr (Or.inr (Or.inl rfl))
                              · rw [if_neg h15]
                                exact Or.inr (Or.inr (Or.inr rfl))
                          · rw [if_neg h13]
                            exact Or.inl rfl

end AISysUtil
